import Mathlib

/-!
Shallow embedding of the Bloodtide balance core: the crit resolver,
stat composer, probability deck, affinity thresholds, Director band
scaling and the benchmarking wave model, translated from the key-formula
blocks of the technical specification (`src/math/crit.rs` declarations,
the Damage Calculation and Probability Roll pseudocode) and from
`benchmarking/src/App.jsx`.  `f64` quantities are modelled as exact
rationals.
-/

namespace Bloodtide

/-- Crit tiers, from the `CritTier` enum in `src/math/crit.rs`. -/
inductive CritTier
  | none
  | normal
  | mega
  | super
deriving DecidableEq, Repr

/-- Result of one attack resolution, from the `CritResult` struct. -/
structure CritResult where
  tier : CritTier
  final_damage : ℚ
  base_damage : ℚ
deriving DecidableEq, Repr

/-- `pub const MAX_DAMAGE_CAP: f64 = 1e15`. -/
def MAX_DAMAGE_CAP : ℚ := 10 ^ 15

/-- The crit roll from the Damage Calculation key formula: tier 3 is
checked first (`roll_t3 < crit_t3` gives a capped Super crit), then
tier 2 (Mega, squared, uncapped), then tier 1 (Normal, doubled with
overflow bonus `max(0, crit_t1 - 100) / 100`), else no crit. -/
def calculate_damage_with_crits (base_damage crit_t1 crit_t2 crit_t3 u1 u2 u3 : ℚ) :
    CritResult :=
  if u3 < crit_t3 then
    { tier := .super, final_damage := min (base_damage ^ 4) MAX_DAMAGE_CAP,
      base_damage := base_damage }
  else if u2 < crit_t2 then
    { tier := .mega, final_damage := base_damage ^ 2, base_damage := base_damage }
  else if u1 < crit_t1 then
    { tier := .normal,
      final_damage := base_damage * 2 * (1 + max 0 (crit_t1 - 100) / 100),
      base_damage := base_damage }
  else
    { tier := .none, final_damage := base_damage, base_damage := base_damage }

/-- C1: the crit resolver evaluates tier 3 first, then tier 2, then
tier 1; exactly one outcome applies per hit (the first successful
tier), and whenever all three crit chances are at least 100 the
resolved tier is Super for every draw in `[0, 100)`. -/
theorem crit_priority_order (b c1 c2 c3 u1 u2 u3 : ℚ)
    (hu1 : 0 ≤ u1 ∧ u1 < 100) (hu2 : 0 ≤ u2 ∧ u2 < 100) (hu3 : 0 ≤ u3 ∧ u3 < 100) :
    ((calculate_damage_with_crits b c1 c2 c3 u1 u2 u3).tier = .super ↔ u3 < c3) ∧
    ((calculate_damage_with_crits b c1 c2 c3 u1 u2 u3).tier = .mega ↔
      (¬ u3 < c3 ∧ u2 < c2)) ∧
    ((calculate_damage_with_crits b c1 c2 c3 u1 u2 u3).tier = .normal ↔
      (¬ u3 < c3 ∧ ¬ u2 < c2 ∧ u1 < c1)) ∧
    ((calculate_damage_with_crits b c1 c2 c3 u1 u2 u3).tier = .none ↔
      (¬ u3 < c3 ∧ ¬ u2 < c2 ∧ ¬ u1 < c1)) ∧
    (100 ≤ c1 → 100 ≤ c2 → 100 ≤ c3 →
      (calculate_damage_with_crits b c1 c2 c3 u1 u2 u3).tier = .super) := by
  obtain ⟨hu1l, hu1r⟩ := hu1
  obtain ⟨hu2l, hu2r⟩ := hu2
  obtain ⟨hu3l, hu3r⟩ := hu3
  unfold calculate_damage_with_crits
  split_ifs with h3 h2 h1 <;> simp_all <;> intros <;> linarith

/-- Witness for C1 at `crit_chance = [100, 100, 100]` and a concrete
draw: the resolved tier is Super. -/
theorem crit_priority_order_witness :
    (calculate_damage_with_crits 5 100 100 100 99 0 50).tier = .super := by
  have h := crit_priority_order 5 100 100 100 99 0 50
    (by norm_num) (by norm_num) (by norm_num)
  exact h.2.2.2.2 (by norm_num) (by norm_num) (by norm_num)

/-- C4: whenever the tier-3 check succeeds, the resolved damage is
`min(base_damage ^ 4, MAX_DAMAGE_CAP)` with `MAX_DAMAGE_CAP = 1e15`,
so Super-crit damage never exceeds `1e15` for any base damage. -/
theorem super_crit_capped (b c1 c2 c3 u1 u2 u3 : ℚ) (h3 : u3 < c3) :
    (calculate_damage_with_crits b c1 c2 c3 u1 u2 u3).final_damage =
      min (b ^ 4) MAX_DAMAGE_CAP ∧
    (calculate_damage_with_crits b c1 c2 c3 u1 u2 u3).final_damage ≤ 10 ^ 15 ∧
    MAX_DAMAGE_CAP = 10 ^ 15 := by
  unfold calculate_damage_with_crits
  rw [if_pos h3]
  refine ⟨rfl, ?_, rfl⟩
  simp [MAX_DAMAGE_CAP]

/-- Witness for C4: a huge base damage of `1e6` still resolves to
exactly the cap `1e15` on a Super crit. -/
theorem super_crit_capped_witness :
    (calculate_damage_with_crits (10 ^ 6) 0 0 100 0 0 50).final_damage ≤ 10 ^ 15 :=
  (super_crit_capped (10 ^ 6) 0 0 100 0 0 50 (by norm_num)).2.1

/-- C5: when tiers 3 and 2 fail and tier 1 succeeds, the resolved
damage is `base_damage * 2 * (1 + max(0, crit_t1 - 100) / 100)`
(Normal crit with overflow bonus). -/
theorem normal_crit_overflow (b c1 c2 c3 u1 u2 u3 : ℚ)
    (h3 : ¬ u3 < c3) (h2 : ¬ u2 < c2) (h1 : u1 < c1) :
    (calculate_damage_with_crits b c1 c2 c3 u1 u2 u3).final_damage =
      b * 2 * (1 + max 0 (c1 - 100) / 100) ∧
    (calculate_damage_with_crits b c1 c2 c3 u1 u2 u3).tier = .normal := by
  unfold calculate_damage_with_crits
  rw [if_neg h3, if_neg h2, if_pos h1]
  exact ⟨rfl, rfl⟩

/-- Witness for C5: `crit_t1 = 120` with a tier-1-guaranteeing draw
yields `final_damage = 10 * 2 * 1.2 = 24`. -/
theorem normal_crit_overflow_witness :
    (calculate_damage_with_crits 10 120 0 0 50 0 0).final_damage = 24 := by
  have h := normal_crit_overflow 10 120 0 0 50 0 0
    (by norm_num) (by norm_num) (by norm_num)
  rw [h.1]; norm_num

/-- C6: when the tier-3 check fails and the tier-2 check succeeds, the
resolved damage is `base_damage ^ 2` with no ceiling applied (a base
damage of `1e8` yields `1e16`, above the tier-3 cap), and the tier is
Mega. -/
theorem mega_crit_uncapped (b c1 c2 c3 u1 u2 u3 : ℚ)
    (h3 : ¬ u3 < c3) (h2 : u2 < c2) :
    calculate_damage_with_crits b c1 c2 c3 u1 u2 u3 =
      { tier := .mega, final_damage := b ^ 2, base_damage := b } ∧
    MAX_DAMAGE_CAP <
      (calculate_damage_with_crits (10 ^ 8) 0 100 0 0 0 0).final_damage := by
  constructor
  · unfold calculate_damage_with_crits
    rw [if_neg h3, if_pos h2]
  · unfold calculate_damage_with_crits MAX_DAMAGE_CAP
    norm_num

/-- Witness for C6 at concrete draws: a Mega crit squares the base
damage with no cap. -/
theorem mega_crit_uncapped_witness :
    calculate_damage_with_crits (10 ^ 8) 0 100 0 0 0 0 =
      { tier := .mega, final_damage := 10 ^ 16, base_damage := 10 ^ 8 } := by
  have h := mega_crit_uncapped (10 ^ 8) 0 100 0 0 0 0 (by norm_num) (by norm_num)
  rw [h.1]; norm_num

/-! ## Stat Composer (Damage Calculation key formula) -/

/-- `level_bonus = creature.level * 0.10` — +10% per level, with no cap. -/
def LEVEL_DAMAGE_STEP : ℚ := 1 / 10

/-- `final_base` from the Damage Calculation key formula:
`base_damage * (1 + affinity_bonus/100) * (1 + artifact_bonus/100) * (1 + level_bonus)`
where `affinity_bonus` and `artifact_bonus` are percentages and
`level_bonus = level * 0.10`. -/
def final_base (base_damage affinity_bonus artifact_bonus : ℚ) (level : ℕ) : ℚ :=
  base_damage * (1 + affinity_bonus / 100) * (1 + artifact_bonus / 100)
    * (1 + (level : ℚ) * LEVEL_DAMAGE_STEP)

/-- C2: effective damage is the base damage times three independent
factors — affinity and ledger (artifact) percentages each divided by
100, and the level term `1 + level/10`; the level factor is uncapped:
damage keeps strictly increasing with level beyond any `max_level`. -/
theorem final_base_factors (b a art : ℚ) (lvl : ℕ)
    (hb : 0 < b) (ha : 0 ≤ a) (hart : 0 ≤ art) :
    final_base b a art lvl =
      b * ((1 + a / 100) * ((1 + art / 100) * (1 + (lvl : ℚ) / 10))) ∧
    (∀ max_level lvl1 lvl2 : ℕ, max_level ≤ lvl1 → lvl1 < lvl2 →
      final_base b a art lvl1 < final_base b a art lvl2) := by
  constructor
  · unfold final_base LEVEL_DAMAGE_STEP; ring
  · intro max_level lvl1 lvl2 _ hlt
    have hF : 0 < b * (1 + a / 100) * (1 + art / 100) := by positivity
    have hcast : (lvl1 : ℚ) < (lvl2 : ℚ) := by exact_mod_cast hlt
    have hstep : 1 + (lvl1 : ℚ) * LEVEL_DAMAGE_STEP < 1 + (lvl2 : ℚ) * LEVEL_DAMAGE_STEP := by
      unfold LEVEL_DAMAGE_STEP; linarith
    calc final_base b a art lvl1
        = b * (1 + a / 100) * (1 + art / 100) * (1 + (lvl1 : ℚ) * LEVEL_DAMAGE_STEP) := rfl
      _ < b * (1 + a / 100) * (1 + art / 100) * (1 + (lvl2 : ℚ) * LEVEL_DAMAGE_STEP) :=
          mul_lt_mul_of_pos_left hstep hF
      _ = final_base b a art lvl2 := rfl

/-- Witness for C2: base 15 with +25% affinity, +20% ledger at level 4
gives `15 * 1.25 * 1.2 * 1.4 = 31.5`, and level 11 beats level 10 even
when `max_level = 10`. -/
theorem final_base_factors_witness :
    final_base 15 25 20 4 = 63 / 2 ∧ final_base 15 25 20 10 < final_base 15 25 20 11 := by
  have h := final_base_factors 15 25 20 4 (by norm_num) (by norm_num) (by norm_num)
  refine ⟨?_, ?_⟩
  · rw [h.1]; norm_num
  · exact h.2 10 10 11 (by norm_num) (by norm_num)

/-! ## Probability Deck (Probability Roll key formula) -/

/-- A card of the probability deck: an identifier and a roll weight. -/
structure Card where
  id : ℕ
  weight : ℚ
deriving DecidableEq, Repr

/-- `deck.total_weight`: the sum of the member card weights. -/
def total_weight (cards : List Card) : ℚ :=
  (cards.map Card.weight).sum

/-- The scan loop of the Probability Roll key formula:
`cumulative += card.weight; if roll < cumulative: return card`. -/
def roll_scan (cards : List Card) (cumulative r : ℚ) : Option Card :=
  match cards with
  | [] => Option.none
  | c :: rest =>
      if r < cumulative + c.weight then Option.some c
      else roll_scan rest (cumulative + c.weight) r

/-- Deck failure modes named by the specification. -/
inductive DeckError
  | emptyDeck
  | invalidWeight
deriving DecidableEq, Repr

/-- Modelled from the spec: `roll()` fails with `EmptyDeckError` when
`total_weight <= 0` (the error branch is absent from the Probability
Roll pseudocode in the repository); the weighted scan itself follows
that pseudocode, starting from `cumulative = 0`. -/
def roll (cards : List Card) (r : ℚ) : Except DeckError Card :=
  if total_weight cards ≤ 0 then Except.error DeckError.emptyDeck
  else
    match roll_scan cards 0 r with
    | Option.some c => Except.ok c
    | Option.none => Except.error DeckError.emptyDeck

/-- Modelled from the spec: non-positive weights are rejected at
registration time with `InvalidWeightError` (the deck-registration
code is absent from the repository). -/
def register_card (cards : List Card) (c : Card) : Except DeckError (List Card) :=
  if c.weight ≤ 0 then Except.error DeckError.invalidWeight
  else Except.ok (cards ++ [c])

/-- Cumulative weight of the first `i` cards of the deck, i.e. the
`cumulative_before` of the half-open ownership interval. -/
def cumulative_before (cards : List Card) (i : ℕ) : ℚ :=
  ((cards.take i).map Card.weight).sum

lemma cumulative_before_nonneg (cards : List Card) (i : ℕ)
    (hw : ∀ c ∈ cards, 0 ≤ c.weight) : 0 ≤ cumulative_before cards i := by
  apply List.sum_nonneg
  intro x hx
  obtain ⟨c, hc, rfl⟩ := List.mem_map.mp hx
  exact hw c (List.mem_of_mem_take hc)

lemma cumulative_before_le_total (cards : List Card) (i : ℕ)
    (hw : ∀ c ∈ cards, 0 ≤ c.weight) :
    cumulative_before cards i ≤ total_weight cards := by
  have hsplit : total_weight cards =
      cumulative_before cards i + ((cards.drop i).map Card.weight).sum := by
    unfold total_weight cumulative_before
    rw [← List.sum_append, ← List.map_append, List.take_append_drop]
  have hdrop : 0 ≤ ((cards.drop i).map Card.weight).sum := by
    apply List.sum_nonneg
    intro x hx
    obtain ⟨c, hc, rfl⟩ := List.mem_map.mp hx
    exact hw c (List.mem_of_mem_drop hc)
  linarith

/-- The scan lands exactly on the card whose half-open interval
`[cumulative_before, cumulative_before + weight)` contains the draw. -/
lemma roll_scan_interval :
    ∀ (cards : List Card) (i : ℕ) (h : i < cards.length) (acc r : ℚ),
      (∀ c ∈ cards, 0 ≤ c.weight) →
      acc + cumulative_before cards i ≤ r →
      r < acc + cumulative_before cards (i + 1) →
      roll_scan cards acc r = Option.some (cards.get ⟨i, h⟩)
  | [], i, h, _, _, _, _, _ => absurd h (by simp)
  | c :: rest, 0, _, acc, r, _, hlo, hhi => by
      have hlo0 : acc ≤ r := by
        simpa [cumulative_before] using hlo
      have hhi1 : r < acc + c.weight := by
        simpa [cumulative_before] using hhi
      simp [roll_scan, hhi1]
  | c :: rest, j + 1, h, acc, r, hw, hlo, hhi => by
      have hwrest : ∀ x ∈ rest, 0 ≤ x.weight := fun x hx => hw x (List.mem_cons_of_mem c hx)
      have hcb : cumulative_before (c :: rest) (j + 1) =
          c.weight + cumulative_before rest j := by
        simp [cumulative_before]
      have hcb2 : cumulative_before (c :: rest) (j + 2) =
          c.weight + cumulative_before rest (j + 1) := by
        simp [cumulative_before]
      have hrestnn : 0 ≤ cumulative_before rest j := cumulative_before_nonneg rest j hwrest
      have hnot : ¬ r < acc + c.weight := by
        rw [hcb] at hlo; push_neg; linarith
      have hrec := roll_scan_interval rest j (by simpa using h) (acc + c.weight) r hwrest
        (by rw [hcb] at hlo; linarith) (by rw [hcb2] at hhi; linarith)
      simp [roll_scan, hnot, hrec]

/-- If the draw lies below the running total, the scan returns some
member card. -/
lemma roll_scan_total :
    ∀ (cards : List Card) (acc r : ℚ), acc ≤ r → r < acc + total_weight cards →
      ∃ c ∈ cards, roll_scan cards acc r = Option.some c
  | [], acc, r, hlo, hhi => by
      exfalso
      simp [total_weight] at hhi
      linarith
  | c :: rest, acc, r, hlo, hhi => by
      by_cases hc : r < acc + c.weight
      · exact ⟨c, List.mem_cons_self c rest, by simp [roll_scan, hc]⟩
      · push_neg at hc
        have htw : total_weight (c :: rest) = c.weight + total_weight rest := by
          simp [total_weight]
        obtain ⟨d, hd, hscan⟩ := roll_scan_total rest (acc + c.weight) r hc
          (by rw [htw] at hhi; linarith)
        refine ⟨d, List.mem_cons_of_mem c hd, ?_⟩
        simp [roll_scan, not_lt.mpr hc, hscan]

/-- C3: for positive weights and a draw inside card `i`'s half-open
interval `[cumulative_before, cumulative_before + weight)`, `roll`
returns exactly card `i` — the first card whose cumulative weight
strictly exceeds the draw. -/
theorem roll_halfopen_interval (cards : List Card) (i : ℕ) (h : i < cards.length) (r : ℚ)
    (hw : ∀ c ∈ cards, 0 < c.weight) (hr : 0 ≤ r)
    (hlo : cumulative_before cards i ≤ r) (hhi : r < cumulative_before cards (i + 1)) :
    roll cards r = Except.ok (cards.get ⟨i, h⟩) := by
  have hw0 : ∀ c ∈ cards, 0 ≤ c.weight := fun c hc => le_of_lt (hw c hc)
  have hpos : ¬ total_weight cards ≤ 0 := by
    push_neg
    have := cumulative_before_le_total cards (i + 1) hw0
    linarith
  have hscan := roll_scan_interval cards i h 0 r hw0 (by linarith) (by linarith)
  simp [roll, hpos, hscan]

/-- Witness for C3: in a two-card deck with weights 25 and 75, the
boundary draw of exactly 25 selects the second card. -/
theorem roll_halfopen_interval_witness :
    roll [⟨0, 25⟩, ⟨1, 75⟩] 25 = Except.ok ⟨1, 75⟩ := by
  have h := roll_halfopen_interval [⟨0, 25⟩, ⟨1, 75⟩] 1 (by norm_num) 25
    (by intro c hc; fin_cases hc <;> norm_num)
    (by norm_num)
    (by norm_num [cumulative_before])
    (by norm_num [cumulative_before])
  simpa using h

/-- C7: rolling with `total_weight <= 0` fails with `EmptyDeckError`
and returns no card; with `total_weight > 0` and a draw in
`[0, total_weight)`, `roll` returns some member card; non-positive
weights are rejected at registration time with `InvalidWeightError`. -/
theorem roll_empty_deck_error (cards : List Card) (r : ℚ) :
    (total_weight cards ≤ 0 → roll cards r = Except.error DeckError.emptyDeck) ∧
    (0 < total_weight cards → 0 ≤ r → r < total_weight cards →
      ∃ c ∈ cards, roll cards r = Except.ok c) ∧
    (∀ c : Card, c.weight ≤ 0 →
      register_card cards c = Except.error DeckError.invalidWeight) := by
  refine ⟨fun h => by simp [roll, h], fun hpos hr hlt => ?_, fun c hc => by
    simp [register_card, hc]⟩
  obtain ⟨c, hc, hscan⟩ := roll_scan_total cards 0 r hr (by linarith)
  exact ⟨c, hc, by simp [roll, not_le.mpr hpos, hscan]⟩

/-- Witness for C7: the empty deck errors out, the 25/75 deck rolls a
card at draw 60, and a zero-weight card is rejected at registration. -/
theorem roll_empty_deck_error_witness :
    roll [] 0 = Except.error DeckError.emptyDeck ∧
    (∃ c ∈ ([⟨0, 25⟩, ⟨1, 75⟩] : List Card), roll [⟨0, 25⟩, ⟨1, 75⟩] 60 = Except.ok c) ∧
    register_card [] ⟨2, 0⟩ = Except.error DeckError.invalidWeight := by
  refine ⟨(roll_empty_deck_error [] 0).1 (by norm_num [total_weight]), ?_, ?_⟩
  · exact (roll_empty_deck_error [⟨0, 25⟩, ⟨1, 75⟩] 60).2.1
      (by norm_num [total_weight]) (by norm_num) (by norm_num [total_weight])
  · exact (roll_empty_deck_error [] 0).2.2 ⟨2, 0⟩ (by norm_num)

/-! ## Affinity Tracker (affinity.toml thresholds) -/

/-- One affinity threshold entry, matching the `affinity.toml` schema:
`{ min, damage_bonus, attack_speed_bonus, crit_t2_unlock, special }`. -/
structure AffThreshold where
  min : ℚ
  damage_bonus : ℚ
  attack_speed_bonus : ℚ
  crit_t2_unlock : Bool
  special : Option String
deriving DecidableEq, Repr

/-- Modelled from the spec: `bonus_for` finds the highest threshold
whose `minimum_value` is at most the current accumulated value and
returns its bundle (the Rust threshold-lookup code is absent from the
repository; the threshold tables themselves come from `affinity.toml`).
The scan keeps the latest entry of the ascending table that is
unlocked. -/
def bonus_for : List AffThreshold → ℚ → Option AffThreshold
  | [], _ => Option.none
  | t :: rest, v =>
      if t.min ≤ v then
        match bonus_for rest v with
        | Option.some u => Option.some u
        | Option.none => Option.some t
      else bonus_for rest v

/-- The red-affinity threshold table from `affinity.toml`. -/
def red_thresholds : List AffThreshold :=
  [⟨0, 0, 0, false, Option.none⟩,
   ⟨11, 10, 0, false, Option.none⟩,
   ⟨26, 25, 10, false, Option.none⟩,
   ⟨51, 50, 10, true, Option.none⟩,
   ⟨76, 100, 10, true, Option.some "burn_dot"⟩]

lemma bonus_for_none_iff (ths : List AffThreshold) (v : ℚ) :
    bonus_for ths v = Option.none ↔ ∀ t ∈ ths, ¬ t.min ≤ v := by
  induction ths with
  | nil => simp [bonus_for]
  | cons t rest ih =>
      by_cases ht : t.min ≤ v
      · rcases hrest : bonus_for rest v with _ | u
        · simp [bonus_for, ht, hrest]
        · simp [bonus_for, ht, hrest]
      · rw [bonus_for, if_neg ht, ih]
        constructor
        · intro h u hu
          rcases List.mem_cons.mp hu with rfl | hur
          · exact ht
          · exact h u hur
        · intro h u hu
          exact h u (List.mem_cons_of_mem t hu)

/-- C8: over a strictly ascending threshold table, `bonus_for` returns
the highest threshold whose `minimum_value` is at most the value — a
value exactly equal to a threshold's `minimum_value` receives that
threshold's bundle (inclusive lower bound), and any value keeps the
bundle of the maximal unlocked threshold. -/
theorem bonus_for_highest (ths : List AffThreshold)
    (hs : ths.Pairwise (fun a b => a.min < b.min)) :
    (∀ t ∈ ths, bonus_for ths t.min = Option.some t) ∧
    (∀ v t, bonus_for ths v = Option.some t →
      t ∈ ths ∧ t.min ≤ v ∧ ∀ u ∈ ths, u.min ≤ v → u.min ≤ t.min) := by
  induction ths with
  | nil => exact ⟨fun t ht => absurd ht (by simp), fun v t h => by simp [bonus_for] at h⟩
  | cons t0 rest ih =>
      have hhead : ∀ u ∈ rest, t0.min < u.min := fun u hu => (List.pairwise_cons.mp hs).1 u hu
      obtain ⟨ih1, ih2⟩ := ih (List.pairwise_cons.mp hs).2
      constructor
      · intro t ht
        rcases List.mem_cons.mp ht with rfl | htr
        · have hnone : bonus_for rest t.min = Option.none :=
            (bonus_for_none_iff rest t.min).mpr (fun u hu => not_le.mpr (hhead u hu))
          simp [bonus_for, hnone]
        · have hle : t0.min ≤ t.min := le_of_lt (hhead t htr)
          have := ih1 t htr
          simp [bonus_for, hle, this]
      · intro v t h
        by_cases h0 : t0.min ≤ v
        · rcases hrest : bonus_for rest v with _ | u
          · have ht0 : t = t0 := by
              rw [bonus_for, if_pos h0, hrest] at h
              exact (Option.some_inj.mp h).symm
            subst ht0
            have hall : ∀ x ∈ rest, ¬ x.min ≤ v := (bonus_for_none_iff rest v).mp hrest
            refine ⟨List.mem_cons_self t rest, h0, fun u hu huv => ?_⟩
            rcases List.mem_cons.mp hu with rfl | hur
            · exact le_refl _
            · exact absurd huv (hall u hur)
          · have htu : t = u := by
              rw [bonus_for, if_pos h0, hrest] at h
              exact (Option.some_inj.mp h).symm
            subst htu
            obtain ⟨hu1, hu2, hu3⟩ := ih2 v t hrest
            refine ⟨List.mem_cons_of_mem t0 hu1, hu2, fun u hu huv => ?_⟩
            rcases List.mem_cons.mp hu with rfl | hur
            · exact le_of_lt (hhead t hu1)
            · exact hu3 u hur huv
        · rw [bonus_for, if_neg h0] at h
          obtain ⟨hu1, hu2, hu3⟩ := ih2 v t h
          refine ⟨List.mem_cons_of_mem t0 hu1, hu2, fun u hu huv => ?_⟩
          rcases List.mem_cons.mp hu with rfl | hur
          · exact absurd huv h0
          · exact hu3 u hur huv

/-- Witness for C8: at red affinity exactly 26 the `+25%` threshold's
bundle applies (inclusive lower bound), and at 50 — below the next
threshold at 51 — the same bundle is kept. -/
theorem bonus_for_highest_witness :
    bonus_for red_thresholds 26 = Option.some ⟨26, 25, 10, false, Option.none⟩ ∧
    bonus_for red_thresholds 50 = Option.some ⟨26, 25, 10, false, Option.none⟩ := by
  have hs : red_thresholds.Pairwise (fun a b => a.min < b.min) := by
    unfold red_thresholds
    refine List.pairwise_cons.mpr ⟨?_, List.pairwise_cons.mpr ⟨?_,
      List.pairwise_cons.mpr ⟨?_, List.pairwise_cons.mpr ⟨?_, List.pairwise_singleton _ _⟩⟩⟩⟩ <;>
      intro b hb <;> fin_cases hb <;> norm_num
  constructor
  · have h := (bonus_for_highest red_thresholds hs).1 ⟨26, 25, 10, false, Option.none⟩
      (by unfold red_thresholds; simp)
    simpa using h
  · simp [red_thresholds, bonus_for]
    norm_num

/-! ## Director (stress-based adaptive spawning) -/

/-- Modelled from the spec: `stress_level` is a weighted combination
(taken with equal weights) of the player's `dps_estimate` against the
expected-DPS-for-wave curve and the average health fraction, clamped
to `[0, 1]`; low stress means the player is dominating (`src/resources/director.rs`
is absent from the repository). -/
def stress_level (expected_dps dps_estimate health_frac : ℚ) : ℚ :=
  max 0 (min 1 (((1 - dps_estimate / expected_dps) + (1 - health_frac)) / 2))

/-- The stress-band spawn multipliers from the Director progress log:
stomping (stress < 0.3) doubles the spawn rate, struggling
(stress > 0.7) scales it to 0.6, comfortable keeps it at 1.0. -/
def band_modifier (stress : ℚ) : ℚ :=
  if stress < 3 / 10 then 2
  else if 7 / 10 < stress then 3 / 5
  else 1

/-- Modelled from the spec: the spawn-rate modifier emitted each
Director tick is the band multiplier of the current stress level. -/
def spawn_rate_modifier (expected_dps dps_estimate health_frac : ℚ) : ℚ :=
  band_modifier (stress_level expected_dps dps_estimate health_frac)

/-- Counterexample to C9 as stated: with the expected curve at 100 and
health fraction 2/5, raising `dps_estimate` from 0 to 150 raises the
spawn-rate modifier from 0.6 to 2.0 — the modifier is not
non-increasing in `dps_estimate` (a stomping player gets more spawns,
not fewer). -/
theorem spawn_modifier_not_antitone :
    spawn_rate_modifier 100 0 (2 / 5) = 3 / 5 ∧
    spawn_rate_modifier 100 150 (2 / 5) = 2 ∧
    ¬ spawn_rate_modifier 100 150 (2 / 5) ≤ spawn_rate_modifier 100 0 (2 / 5) := by
  refine ⟨?_, ?_, ?_⟩ <;>
    norm_num [spawn_rate_modifier, stress_level, band_modifier]

lemma band_modifier_antitone {s1 s2 : ℚ} (h : s1 ≤ s2) :
    band_modifier s2 ≤ band_modifier s1 := by
  unfold band_modifier
  split_ifs <;> norm_num <;> linarith

/-- C9 amended: for a fixed Director configuration the spawn-rate
modifier is monotonically non-DECREASING as `dps_estimate` rises
relative to the expected-DPS curve (stress falls as the player
dominates), and it is always clamped between the strictly positive
floor 0.6 and the ceiling 2.0 — it never drops to zero. -/
theorem spawn_modifier_monotone_bounded (expected_dps d1 d2 health_frac : ℚ)
    (hexp : 0 < expected_dps) (hd : d1 ≤ d2) :
    spawn_rate_modifier expected_dps d1 health_frac ≤
      spawn_rate_modifier expected_dps d2 health_frac ∧
    (∀ d : ℚ, 3 / 5 ≤ spawn_rate_modifier expected_dps d health_frac ∧
      spawn_rate_modifier expected_dps d health_frac ≤ 2 ∧
      0 < spawn_rate_modifier expected_dps d health_frac) := by
  constructor
  · have hdiv : d1 / expected_dps ≤ d2 / expected_dps := by gcongr
    have hstress : stress_level expected_dps d2 health_frac ≤
        stress_level expected_dps d1 health_frac := by
      unfold stress_level
      have : ((1 - d2 / expected_dps) + (1 - health_frac)) / 2 ≤
          ((1 - d1 / expected_dps) + (1 - health_frac)) / 2 := by linarith
      exact max_le_max (le_refl 0) (min_le_min (le_refl 1) this)
    exact band_modifier_antitone hstress
  · intro d
    unfold spawn_rate_modifier band_modifier
    split_ifs <;> norm_num

/-- Witness for the amended C9: with the expected curve at 100 and
health 2/5, the modifier at dps 0 is at most the modifier at dps 150,
and the modifier at dps 150 stays within `[0.6, 2]`. -/
theorem spawn_modifier_monotone_bounded_witness :
    spawn_rate_modifier 100 0 (2 / 5) ≤ spawn_rate_modifier 100 150 (2 / 5) ∧
    3 / 5 ≤ spawn_rate_modifier 100 150 (2 / 5) ∧
    spawn_rate_modifier 100 150 (2 / 5) ≤ 2 ∧
    0 < spawn_rate_modifier 100 150 (2 / 5) := by
  have h := spawn_modifier_monotone_bounded 100 0 150 (2 / 5) (by norm_num) (by norm_num)
  exact ⟨h.1, h.2 150⟩

/-! ## Benchmarking wave model (`benchmarking/src/App.jsx`) -/

/-- `Math.round` of JavaScript: round half up, modelled on exact
rationals. -/
def jsRound (x : ℚ) : ℤ := ⌊x + 1 / 2⌋

/-- `killsForNextLevel = 25 * Math.pow(1.2, playerLevel - 1)`. -/
def killsForNextLevel (playerLevel : ℕ) : ℚ :=
  25 * (6 / 5 : ℚ) ^ (playerLevel - 1)

/-- The inner player-level while loop of `calculateGameData`:
`while (cumulativeKillsNeeded < totalKills && playerLevel < 100)`,
each iteration adding `killsForNextLevel` to the accumulator and
incrementing the level only when the new accumulator stays within
`totalKills`.  It terminates because each pass either increments the
level (guarded below 100) or pushes the accumulator past `totalKills`
so the next guard check fails. -/
def levelLoop (totalKills cum : ℚ) (lvl : ℕ) : ℚ × ℕ :=
  if h : cum < totalKills ∧ lvl < 100 then
    if h2 : cum + killsForNextLevel lvl ≤ totalKills then
      levelLoop totalKills (cum + killsForNextLevel lvl) (lvl + 1)
    else
      levelLoop totalKills (cum + killsForNextLevel lvl) lvl
  else (cum, lvl)
  termination_by 2 * (100 - lvl) + (if cum < totalKills then 1 else 0)
  decreasing_by
  · rw [if_pos h.1]
    have := h.2
    split_ifs <;> omega
  · have hnot : ¬ cum + killsForNextLevel lvl < totalKills := by
      push_neg at h2 ⊢
      exact le_of_lt h2
    rw [if_neg hnot, if_pos h.1]
    omega

/-- One row pushed by the `calculateGameData` wave loop, with the
numeric fields of the pushed object. -/
structure WaveEntry where
  wave : ℕ
  playerLevel : ℕ
  numCreatures : ℤ
  avgCreatureLevel : ℤ
  playerDPS : ℚ
  enemyHP : ℚ
  ttk : ℚ
  spawnRate : ℚ
  killRate : ℚ
  enemiesAlive : ℤ
  pressure : ℚ
  evolutionMult : ℚ
deriving DecidableEq, Repr

/-- The body of the `for (let wave = 1; wave <= 30; wave++)` loop of
`calculateGameData` in `benchmarking/src/App.jsx`. -/
def mkWaveEntry (enemyHpExponent : ℚ) (wave : ℕ) : WaveEntry :=
  let totalKills : ℚ := wave * 50
  let playerLevel : ℕ := (levelLoop totalKills 0 1).2
  let numCreatures : ℤ := max 1 ⌊(playerLevel : ℚ) * (6 / 10)⌋
  let baseDPS : ℚ := 15
  let avgCreatureLevel : ℤ := 1 + ⌊totalKills / ((numCreatures : ℚ) * 50)⌋
  let levelMultiplier : ℚ := 1 + (1 / 10) * (avgCreatureLevel : ℚ)
  let critMult : ℚ := 11 / 10
  let evolutionMult : ℚ := if 15 ≤ playerLevel then 2 else 1
  let playerDPS : ℚ :=
    (numCreatures : ℚ) * baseDPS * levelMultiplier * critMult * evolutionMult
  let enemyHP : ℚ := 30 * enemyHpExponent ^ wave
  let spawnRate : ℚ := min 4 (8 / 10 + (wave : ℚ) * (1 / 10))
  let enemySpeed : ℚ := 80
  let spawnDistance : ℚ := 700
  let ttk : ℚ := enemyHP / playerDPS
  let killRate : ℚ := playerDPS / enemyHP
  let travelTime : ℚ := spawnDistance / enemySpeed
  let enemiesAlive : ℚ := spawnRate * (travelTime + ttk)
  let pressure : ℚ := spawnRate / killRate
  { wave := wave
    playerLevel := playerLevel
    numCreatures := numCreatures
    avgCreatureLevel := avgCreatureLevel
    playerDPS := (jsRound (playerDPS * 10) : ℚ) / 10
    enemyHP := (jsRound (enemyHP * 10) : ℚ) / 10
    ttk := (jsRound (ttk * 1000) : ℚ) / 1000
    spawnRate := (jsRound (spawnRate * 100) : ℚ) / 100
    killRate := (jsRound (killRate * 1000) : ℚ) / 1000
    enemiesAlive := jsRound enemiesAlive
    pressure := (jsRound (pressure * 100) : ℚ) / 100
    evolutionMult := evolutionMult }

/-- `calculateGameData`: iterate the wave body for waves 1 to 30 and
collect the pushed rows in order. -/
def calculateGameData (enemyHpExponent : ℚ) : List WaveEntry :=
  (List.range 30).map (fun i => mkWaveEntry enemyHpExponent (i + 1))

/-- C10: for every rational `enemyHpExponent`, `calculateGameData`
returns exactly 30 entries whose wave fields are 1 through 30 in
strictly increasing order, and each pass of the inner player-level
loop adds at least 25 to the accumulator (which, with the level
guarded below 100, is why the loop terminates). -/
theorem calculateGameData_thirty_waves (enemyHpExponent : ℚ) :
    (calculateGameData enemyHpExponent).length = 30 ∧
    (calculateGameData enemyHpExponent).map WaveEntry.wave = List.range' 1 30 ∧
    (∀ lvl : ℕ, 25 ≤ killsForNextLevel lvl) := by
  refine ⟨by simp [calculateGameData], ?_, ?_⟩
  · rw [List.range'_eq_map_range]
    unfold calculateGameData
    rw [List.map_map]
    apply List.map_congr_left
    intro i _
    simp [mkWaveEntry, Nat.add_comm]
  · intro lvl
    have hpow : (1 : ℚ) ≤ (6 / 5 : ℚ) ^ (lvl - 1) := one_le_pow₀ (by norm_num)
    unfold killsForNextLevel
    nlinarith

end Bloodtide
